import Mathlib

/-!
# BU-Planner backend: verified model of the course routes

A shallow embedding of `backend/app/routes.py`: course records are JSON-like
dictionaries, and the route handlers become pure Lean functions over them.
Python dictionaries are modelled as association lists whose operations follow
dict semantics (lookup returns the first binding; `setdefault` appends a new
binding only when the key is absent, matching insertion order).
-/

/-- JSON-like values, the payloads stored in course records.  Numbers are
modelled as rationals (the only numeric literal in the routes is `4.0`). -/
inductive JVal where
  | null
  | bool (b : Bool)
  | num (q : Rat)
  | str (s : String)
  | arr (xs : List JVal)
  | obj (fields : List (String × JVal))

/-- A Python dict with string keys, as an association list in insertion
order. -/
abbrev Dict := List (String × JVal)

namespace Dict

/-- Python d.get(k) without a default: the first binding for k, if any. -/
def find : Dict → String → Option JVal
  | [], _ => none
  | p :: d, k => if p.1 = k then some p.2 else find d k

/-- Python d.get(k, v): the binding for k, or the default v. -/
def getD (d : Dict) (k : String) (v : JVal) : JVal :=
  (d.find k).getD v

/-- Python d.get(k, "") for string-valued fields: the bound string, or "" when
the key is absent (all catalog fields read this way are strings). -/
def getStr (d : Dict) (k : String) : String :=
  match d.find k with
  | some (JVal.str s) => s
  | _ => ""

/-- Python d.setdefault(k, v): insert the pair at the end when k is absent,
otherwise leave d unchanged. -/
def setdefault (d : Dict) (k : String) (v : JVal) : Dict :=
  match d.find k with
  | some _ => d
  | none => d ++ [(k, v)]

end Dict

/-- Tests whether the first list is a leading segment of the second. -/
def leadsWith : List Char → List Char → Bool
  | [], _ => true
  | _ :: _, [] => false
  | a :: as, b :: bs => a = b && leadsWith as bs

/-- Tests whether needle occurs as a contiguous run inside the second list. -/
def containsSub (needle : List Char) : List Char → Bool
  | [] => needle.isEmpty
  | b :: bs => leadsWith needle (b :: bs) || containsSub needle bs

/-- Python needle in hay on strings: substring containment. -/
def strContains (hay needle : String) : Bool :=
  containsSub needle.toList hay.toList

/-- Model of the Python str.lower() method: lowercase every character. -/
def strLower (s : String) : String :=
  String.mk (s.toList.map Char.toLower)

/-- Function enhance_course_data from routes.py: copy the record, then fill
each absent optional field with its default. -/
def enhance_course_data (course : Dict) : Dict :=
  let enhanced := course
  let enhanced := enhanced.setdefault "short_title" (course.getD "title" (JVal.str ""))
  let enhanced := enhanced.setdefault "credits" (JVal.num 4)
  let enhanced := enhanced.setdefault "component" (JVal.str "LEC")
  let enhanced := enhanced.setdefault "repeatable" (JVal.bool false)
  let enhanced := enhanced.setdefault "consent_required" (JVal.bool false)
  let enhanced := enhanced.setdefault "prerequisites"
      (JVal.obj [("required", JVal.arr []), ("recommended", JVal.arr [])])
  let enhanced := enhanced.setdefault "hub_requirements" (JVal.arr [])
  enhanced

/-- Response shape with a course list and a total, shared by the listing and
search routes. -/
structure CoursesResponse where
  courses : List Dict
  total : Nat

/-- Per-course loop body of search_courses: text, department and level
filters, each skipped when its input is empty, combined conjunctively. -/
def course_matches (query department level : String) (course : Dict) : Bool :=
  let text_match :=
    if query ≠ "" then
      strContains (strLower (course.getStr "code")) query ||
      strContains (strLower (course.getStr "title")) query ||
      strContains (strLower (course.getStr "subject")) query ||
      strContains (strLower (course.getStr "catalog_number")) query ||
      strContains (strLower (course.getStr "department")) query
    else true
  let dept_match :=
    if department ≠ "" then
      strContains (strLower (course.getStr "department")) (strLower department) ||
      strContains (strLower (course.getStr "academic_group")) (strLower department) ||
      strContains (strLower (course.getStr "academic_org")) (strLower department)
    else true
  let level_match :=
    if level ≠ "" then
      strContains (strLower (course.getStr "level")) (strLower level)
    else true
  text_match && dept_match && level_match

/-- Function search_courses from routes.py.  Absent query parameters are
modelled as "" (the handler only tests their truthiness, so None and ""
behave identically). -/
def search_courses (courses : List Dict) (q department level : String) :
    CoursesResponse :=
  if q = "" ∧ department = "" ∧ level = "" then
    let enhanced_courses := courses.map enhance_course_data
    ⟨enhanced_courses, enhanced_courses.length⟩
  else
    let query := if q ≠ "" then strLower q else ""
    let results := courses.foldl
      (fun acc course =>
        if course_matches query department level course then
          acc ++ [enhance_course_data course]
        else acc) []
    ⟨results, results.length⟩

/-- Python equality between a record field value and a path-parameter string:
true exactly when the value is that string. -/
def JVal.eqStr (v : JVal) (s : String) : Bool :=
  match v with
  | JVal.str t => t = s
  | _ => false

/-- Outcome of the get_course handler: an enhanced course, an HTTP 404, or an
uncaught KeyError escaping the handler. -/
inductive GetCourseResult where
  | ok (course : Dict)
  | notFound
  | keyError

/-- Primary lookup of get_course: the generator scans the collection in order
and subscripts each record with "id", so it raises KeyError on the first
record lacking that key before any later record is considered. -/
def findById : List Dict → String → Except Unit (Option Dict)
  | [], _ => Except.ok none
  | c :: rest, i =>
    match c.find "id" with
    | none => Except.error ()
    | some v => if v.eqStr i then Except.ok (some c) else findById rest i

/-- Fallback predicate of get_course: c.get("code") == course_id, where an
absent key yields None, which never equals a string. -/
def codeMatches (course_id : String) (c : Dict) : Bool :=
  match c.find "code" with
  | some v => v.eqStr course_id
  | none => false

/-- Handler get_course from routes.py: lookup by id, then by code, then a
404; a record without an id key makes the primary lookup raise. -/
def get_course (courses : List Dict) (course_id : String) : GetCourseResult :=
  match findById courses course_id with
  | Except.error _ => GetCourseResult.keyError
  | Except.ok (some course) => GetCourseResult.ok (enhance_course_data course)
  | Except.ok none =>
    match courses.find? (codeMatches course_id) with
    | some course => GetCourseResult.ok (enhance_course_data course)
    | none => GetCourseResult.notFound

/-- Adds one string field value of a course to the accumulator set, skipping
absent and empty values (the catalog stores these fields as strings, so only
string values occur and the Python truthiness test reduces to non-empty). -/
def fieldInsert (course : Dict) (key : String) (acc : Finset String) :
    Finset String :=
  match course.find key with
  | some (JVal.str s) => if s ≠ "" then insert s acc else acc
  | _ => acc

/-- Loop body of list_departments: add the department, academic_org and
academic_group values of one course to the set. -/
def deptStep (acc : Finset String) (course : Dict) : Finset String :=
  fieldInsert course "academic_group"
    (fieldInsert course "academic_org" (fieldInsert course "department" acc))

/-- Handler list_departments from routes.py: builds the set of department,
academic_org and academic_group values over all courses, then sorts it. -/
def list_departments (courses : List Dict) : List String :=
  (courses.foldl deptStep ∅).sort (fun a b => a ≤ b)

/-- Abstract outcome of probing one backing file: missing on disk, an IO
error while opening or reading, a JSON decode error, or parsed data.  The
loader does file IO, which the embedding models through this environment. -/
inductive FileOutcome where
  | absent
  | unreadable
  | malformed
  | ok (data : List Dict)

/-- Function load_courses_from_json from routes.py over the abstract file
environment: a primary file, a fallback used only when the primary is
missing, and a catch-all that turns any raised error into an empty list. -/
def load_courses_from_json (primary fallback : FileOutcome) : List Dict :=
  match primary with
  | FileOutcome.ok data => data
  | FileOutcome.absent =>
    match fallback with
    | FileOutcome.ok data => data
    | FileOutcome.absent => []
    | FileOutcome.unreadable => []
    | FileOutcome.malformed => []
  | FileOutcome.unreadable => []
  | FileOutcome.malformed => []

/-- Fallback reply of rule 1: searching for courses (Explorer page). -/
def fallbackExplorer : String :=
  "To search for courses, go to the **Explorer** page (click \x27Explorer\x27 in the top menu). You can use the search bar to find courses by name or code, and use the filters to narrow by department or level."

/-- Fallback reply of rule 2: semester planning (Planner page). -/
def fallbackPlanner : String :=
  "To plan your semesters, go to the **Planner** page (click \x27Planner\x27 in the top menu). Click \x27Add Semester\x27 to create a semester, then drag courses from the left sidebar into your semester boards. You can export your plan to PDF when done!"

/-- Fallback reply of rule 3: career advice (Progress page). -/
def fallbackCareer : String :=
  "For career advice and course recommendations, go to the **Progress** page (click \x27Progress\x27 in the top menu). You can browse preset career paths or enter your own custom career goal to get AI-powered course recommendations!"

/-- Fallback reply of rule 4: professor research (Professors page). -/
def fallbackProfessors : String :=
  "To research professors, go to the **Professors** page (click \x27Professors\x27 in the top menu). You can browse by department, view their publications, and even generate professional cold emails to reach out to them."

/-- Fallback reply of rule 5: PDF export (Planner page). -/
def fallbackExport : String :=
  "To export your semester plan to PDF, go to the **Planner** page and click the \x27Export to PDF\x27 button at the top. Make sure you\x27ve added some courses to your semesters first!"

/-- Fallback reply of rule 6: general navigation help. -/
def fallbackNavigate (course_count : Nat) : String :=
  "I can help you navigate the BU Course Planner! Here are the main sections:\n\n📚 **Explorer** - Search and browse " ++ toString course_count ++ " courses\n📅 **Planner** - Drag-and-drop semester planning\n🎯 **Progress** - Get AI career recommendations\n👨‍🏫 **Professors** - Research faculty and publications\n\nWhat would you like to do? I can give you specific directions!"

/-- Default fallback reply when no rule matches. -/
def fallbackDefault (course_count : Nat) : String :=
  "I\x27m here to help you navigate the BU Course Planner! The site has 5 main sections:\n\n• **Home** - Overview and quick links\n• **Explorer** - Search " ++ toString course_count ++ " BU courses\n• **Planner** - Plan your semesters with drag-and-drop\n• **Progress** - Get AI career advice\n• **Professors** - Research faculty\n\nWhat would you like help with? Ask me about finding courses, planning semesters, career recommendations, or researching professors!"

/-- Function get_fallback_response from chatbot_conversation in routes.py:
six keyword rules tried in order on the lowercased message, first match
wins, otherwise the default reply. -/
def get_fallback_response (course_count : Nat) (message : String) : String :=
  let msg_lower := strLower message
  if (strContains msg_lower "find" || strContains msg_lower "search" ||
      strContains msg_lower "look for" || strContains msg_lower "where") &&
      strContains msg_lower "course" then
    fallbackExplorer
  else if strContains msg_lower "plan" &&
      (strContains msg_lower "semester" || strContains msg_lower "schedule") then
    fallbackPlanner
  else if strContains msg_lower "career" || strContains msg_lower "recommendation" then
    fallbackCareer
  else if strContains msg_lower "professor" || strContains msg_lower "faculty" then
    fallbackProfessors
  else if strContains msg_lower "export" || strContains msg_lower "pdf" then
    fallbackExport
  else if strContains msg_lower "navigate" || strContains msg_lower "use" ||
      strContains msg_lower "how" || strContains msg_lower "help" ||
      strContains msg_lower "guide" then
    fallbackNavigate course_count
  else
    fallbackDefault course_count

/-- Response body of the chatbot handler. -/
structure ChatResponse where
  response : String
  model : String
  message : String

/-- Handler chatbot_conversation from routes.py in the no-credential
configuration: HTTP 400 on an empty message, otherwise the rule-based
fallback reply tagged with model "fallback". -/
def chatbot_conversation_noKey (courses : List Dict) (message : String) :
    Except Nat ChatResponse :=
  if message = "" then Except.error 400
  else Except.ok ⟨get_fallback_response courses.length message, "fallback", message⟩

/-- Opening curly brace character. -/
def lbrace : Char := Char.ofNat 123

/-- Closing curly brace character. -/
def rbrace : Char := Char.ofNat 125

/-- JSON whitespace. -/
def isJsonWs (c : Char) : Bool :=
  c = ' ' || c = '\n' || c = '\t' || c = '\r'

/-- Drops leading JSON whitespace. -/
def skipWs : List Char → List Char
  | [] => []
  | c :: cs => if isJsonWs c then skipWs cs else c :: cs

/-- JSON string escape codes (the unicode escape form is not needed by any
input considered here, so the model rejects it). -/
def escChar (c : Char) : Option Char :=
  if c = '"' then some '"'
  else if c = '\\' then some '\\'
  else if c = '/' then some '/'
  else if c = 'n' then some '\n'
  else if c = 't' then some '\t'
  else if c = 'r' then some '\r'
  else if c = 'b' then some (Char.ofNat 8)
  else if c = 'f' then some (Char.ofNat 12)
  else none

/-- Reads the body of a JSON string literal after its opening quote,
returning the decoded characters and the input past the closing quote. -/
def parseStrChars : List Char → Option (List Char × List Char)
  | [] => none
  | c :: cs =>
    if c = '"' then some ([], cs)
    else if c = '\\' then
      match cs with
      | [] => none
      | e :: cs2 =>
        match escChar e with
        | some ec =>
          match parseStrChars cs2 with
          | some (body, rest) => some (ec :: body, rest)
          | none => none
        | none => none
    else
      match parseStrChars cs with
      | some (body, rest) => some (c :: body, rest)
      | none => none

/-- Numeric value of a decimal digit character. -/
def digitVal (c : Char) : Option Nat :=
  if '0' ≤ c && c ≤ '9' then some (c.toNat - Char.toNat '0') else none

/-- Splits off the leading run of decimal digits. -/
def spanDigits : List Char → List Nat × List Char
  | [] => ([], [])
  | c :: cs =>
    match digitVal c with
    | some d =>
      let p := spanDigits cs
      (d :: p.1, p.2)
    | none => ([], c :: cs)

/-- Value of a digit run read most significant first. -/
def digitsToNat (ds : List Nat) : Nat :=
  ds.foldl (fun a d => a * 10 + d) 0

/-- Reads a JSON number: optional minus sign, integer digits, optional
fractional digits (exponents are not needed by any input considered here). -/
def parseNum (cs : List Char) : Option (Rat × List Char) :=
  let signed : Bool × List Char :=
    match cs with
    | c :: rest => if c = '-' then (true, rest) else (false, cs)
    | [] => (false, cs)
  match spanDigits signed.2 with
  | ([], _) => none
  | (ds, rest) =>
    let ip : Rat := (digitsToNat ds : Nat)
    match rest with
    | c :: rest2 =>
      if c = '.' then
        match spanDigits rest2 with
        | ([], _) => none
        | (ds2, rest3) =>
          let value : Rat := ip + (digitsToNat ds2 : Rat) / ((10 : Rat) ^ ds2.length)
          some (if signed.1 then -value else value, rest3)
      else some (if signed.1 then -ip else ip, c :: rest2)
    | [] => some (if signed.1 then -ip else ip, [])

mutual

/-- Reads one JSON value, with fuel bounding the recursion depth. -/
def parseVal : Nat → List Char → Option (JVal × List Char)
  | 0, _ => none
  | fuel + 1, cs =>
    match skipWs cs with
    | [] => none
    | c :: rest =>
      if c = '"' then
        match parseStrChars rest with
        | some (body, r) => some (JVal.str (String.mk body), r)
        | none => none
      else if c = lbrace then
        match skipWs rest with
        | d :: r2 =>
          if d = rbrace then some (JVal.obj [], r2)
          else
            match parseMembers fuel (d :: r2) with
            | some (fs2, r3) => some (JVal.obj fs2, r3)
            | none => none
        | [] => none
      else if c = '[' then
        match skipWs rest with
        | d :: r2 =>
          if d = ']' then some (JVal.arr [], r2)
          else
            match parseItems fuel (d :: r2) with
            | some (xs, r3) => some (JVal.arr xs, r3)
            | none => none
        | [] => none
      else if c = 't' then
        if leadsWith ['r', 'u', 'e'] rest then some (JVal.bool true, rest.drop 3)
        else none
      else if c = 'f' then
        if leadsWith ['a', 'l', 's', 'e'] rest then some (JVal.bool false, rest.drop 4)
        else none
      else if c = 'n' then
        if leadsWith ['u', 'l', 'l'] rest then some (JVal.null, rest.drop 3)
        else none
      else
        match parseNum (c :: rest) with
        | some (q, r) => some (JVal.num q, r)
        | none => none

/-- Reads the members of a JSON object after its opening brace. -/
def parseMembers : Nat → List Char → Option (List (String × JVal) × List Char)
  | 0, _ => none
  | fuel + 1, cs =>
    match skipWs cs with
    | c :: rest =>
      if c = '"' then
        match parseStrChars rest with
        | some (keyChars, r1) =>
          match skipWs r1 with
          | d :: r2 =>
            if d = ':' then
              match parseVal fuel r2 with
              | some (v, r3) =>
                match skipWs r3 with
                | e :: r4 =>
                  if e = ',' then
                    match parseMembers fuel r4 with
                    | some (fs2, r5) => some ((String.mk keyChars, v) :: fs2, r5)
                    | none => none
                  else if e = rbrace then some ([(String.mk keyChars, v)], r4)
                  else none
                | [] => none
              | none => none
            else none
          | [] => none
        | none => none
      else none
    | [] => none

/-- Reads the items of a JSON array after its opening bracket. -/
def parseItems : Nat → List Char → Option (List JVal × List Char)
  | 0, _ => none
  | fuel + 1, cs =>
    match parseVal fuel cs with
    | some (v, r1) =>
      match skipWs r1 with
      | e :: r2 =>
        if e = ',' then
          match parseItems fuel r2 with
          | some (xs, r3) => some (v :: xs, r3)
          | none => none
        else if e = ']' then some ([v], r2)
        else none
      | [] => none
    | none => none

end

/-- Model of json.loads: the whole input, up to surrounding whitespace, must
read as one JSON value. -/
def json_decode (s : String) : Option JVal :=
  match parseVal (s.length + 1) s.toList with
  | some (v, rest) => if (skipWs rest).isEmpty then some v else none
  | none => none

/-- Match of the regular expression used by gemini_endpoint (an opening
brace, any characters across newlines, a closing brace, greedy): the span
from the first opening brace to the last closing brace, provided the latter
comes after the former. -/
def braceSpan (text : String) : Option String :=
  let cs := text.toList
  match cs.findIdx? (fun c => c = lbrace), cs.reverse.findIdx? (fun c => c = rbrace) with
  | some i, some jr =>
    let j := cs.length - 1 - jr
    if i < j then some (String.mk ((cs.drop i).take (j - i + 1))) else none
  | _, _ => none

/-- Text selected by gemini_endpoint from the AI client result: the value of
the result key when the result is a dict, the result itself when it is a
string.  A result of any other shape, or a dict whose result value is not a
string, yields no usable text: in the handler every parsing step then fails
(json.loads and the regex reject non-strings inside try blocks) and the raw
result is returned, which is how the model treats the none case. -/
def gemini_text (result : JVal) : Option String :=
  match result with
  | JVal.obj d => match Dict.find d "result" with
    | some (JVal.str s) => some s
    | _ => none
  | JVal.str s => some s
  | _ => none

/-- Value of result.get("model") when the result is a dict, else None. -/
def gemini_model_field (result : JVal) : JVal :=
  match result with
  | JVal.obj d => (Dict.find d "model").getD JVal.null
  | _ => JVal.null

/-- Response-shaping tail of gemini_endpoint from routes.py, parameterised
by the JSON decoder standing for json.loads: whole-text parse returning
objects as-is and wrapping other values together with the model field, then
the greedy brace-span parse, then the raw result unchanged. -/
def gemini_extract (decode : String → Option JVal) (result : JVal) : JVal :=
  match gemini_text result with
  | some text =>
    if text ≠ "" then
      match decode text with
      | some (JVal.obj fs) => JVal.obj fs
      | some v => JVal.obj [("result", v), ("model", gemini_model_field result)]
      | none =>
        match braceSpan text with
        | some span =>
          match decode span with
          | some (JVal.obj fs) => JVal.obj fs
          | _ => result
        | none => result
    else result
  | none => result

example : json_decode "\x7b\"a\":1\x7d" = some (JVal.obj [("a", JVal.num 1)]) := rfl
example : json_decode "no json here" = none := rfl
example : braceSpan "here is \x7b\"a\":1\x7d done" = some "\x7b\"a\":1\x7d" := rfl
example : json_decode "[1, 2]" = some (JVal.arr [JVal.num 1, JVal.num 2]) := rfl
example : json_decode " \x7b \"a\" : [true, null] \x7d " =
    some (JVal.obj [("a", JVal.arr [JVal.bool true, JVal.null])]) := rfl

namespace Dict

theorem find_append_some {d : Dict} {k : String} {v : JVal} (e : Dict)
    (h : d.find k = some v) : (d ++ e).find k = some v := by
  induction d with
  | nil => simp [find] at h
  | cons p d ih =>
    by_cases hp : p.1 = k
    · simp [find, hp] at h ⊢; exact h
    · simp [find, hp] at h ⊢; exact ih h

theorem find_append_none {d : Dict} {k : String} (e : Dict)
    (h : d.find k = none) : (d ++ e).find k = e.find k := by
  induction d with
  | nil => simp [find]
  | cons p d ih =>
    by_cases hp : p.1 = k
    · simp [find, hp] at h
    · simp [find, hp] at h ⊢; exact ih h

theorem setdefault_of_isSome {d : Dict} {k : String}
    (h : (d.find k).isSome) (v : JVal) : d.setdefault k v = d := by
  unfold setdefault
  cases hf : d.find k with
  | some w => rfl
  | none => rw [hf] at h; simp at h

theorem find_setdefault (d : Dict) (k0 : String) (v0 : JVal) (k : String) :
    (d.setdefault k0 v0).find k =
      if k0 = k then some ((d.find k).getD v0) else d.find k := by
  unfold setdefault
  cases hf : d.find k0 with
  | some w =>
    by_cases hk : k0 = k
    · subst hk; simp [hf]
    · simp [hk]
  | none =>
    by_cases hk : k0 = k
    · subst hk
      rw [find_append_none _ hf]
      simp [find, hf]
    · cases hg : d.find k with
      | some w => rw [find_append_some _ hg]; simp [hk, hg]
      | none => rw [find_append_none _ hg]; simp [find, hk, hg]

end Dict

/-- Lookup in an enhanced course record: a present key keeps its value, an
absent optional key gets its default, any other absent key stays absent. -/
theorem enhance_find (course : Dict) (k : String) :
    (enhance_course_data course).find k =
      if "short_title" = k then
        some ((course.find k).getD (course.getD "title" (JVal.str ""))) else
      if "credits" = k then some ((course.find k).getD (JVal.num 4)) else
      if "component" = k then some ((course.find k).getD (JVal.str "LEC")) else
      if "repeatable" = k then some ((course.find k).getD (JVal.bool false)) else
      if "consent_required" = k then
        some ((course.find k).getD (JVal.bool false)) else
      if "prerequisites" = k then
        some ((course.find k).getD
          (JVal.obj [("required", JVal.arr []), ("recommended", JVal.arr [])])) else
      if "hub_requirements" = k then some ((course.find k).getD (JVal.arr [])) else
      course.find k := by
  simp only [enhance_course_data, Dict.find_setdefault]
  by_cases h1 : ("short_title" : String) = k
  · subst h1; simp
  by_cases h2 : ("credits" : String) = k
  · subst h2; simp
  by_cases h3 : ("component" : String) = k
  · subst h3; simp
  by_cases h4 : ("repeatable" : String) = k
  · subst h4; simp
  by_cases h5 : ("consent_required" : String) = k
  · subst h5; simp
  by_cases h6 : ("prerequisites" : String) = k
  · subst h6; simp
  by_cases h7 : ("hub_requirements" : String) = k
  · subst h7; simp
  simp [h1, h2, h3, h4, h5, h6, h7]

/-- C3: enhancement fills each absent optional field with its documented
default — short_title with the title, credits with 4.0, component with
"LEC", repeatable and consent_required with false, prerequisites with empty
required and recommended lists, hub_requirements with an empty sequence —
and every present field keeps exactly its original value. -/
theorem enhance_course_data_defaults (course : Dict) :
    (∀ t, course.find "short_title" = none → course.find "title" = some t →
      (enhance_course_data course).find "short_title" = some t)
    ∧ (course.find "credits" = none →
      (enhance_course_data course).find "credits" = some (JVal.num 4))
    ∧ (course.find "component" = none →
      (enhance_course_data course).find "component" = some (JVal.str "LEC"))
    ∧ (course.find "repeatable" = none →
      (enhance_course_data course).find "repeatable" = some (JVal.bool false))
    ∧ (course.find "consent_required" = none →
      (enhance_course_data course).find "consent_required" = some (JVal.bool false))
    ∧ (course.find "prerequisites" = none →
      (enhance_course_data course).find "prerequisites"
        = some (JVal.obj [("required", JVal.arr []), ("recommended", JVal.arr [])]))
    ∧ (course.find "hub_requirements" = none →
      (enhance_course_data course).find "hub_requirements" = some (JVal.arr []))
    ∧ (∀ k v, course.find k = some v →
      (enhance_course_data course).find k = some v) := by
  refine ⟨?_, ?_, ?_, ?_, ?_, ?_, ?_, ?_⟩
  · intro t hst htitle
    rw [enhance_find]
    simp [hst, htitle, Dict.getD]
  · intro h; rw [enhance_find]; simp [h]
  · intro h; rw [enhance_find]; simp [h]
  · intro h; rw [enhance_find]; simp [h]
  · intro h; rw [enhance_find]; simp [h]
  · intro h; rw [enhance_find]; simp [h]
  · intro h; rw [enhance_find]; simp [h]
  · intro k v h; rw [enhance_find]; simp [h]

theorem enhance_course_data_defaults_witness :
    (enhance_course_data [("title", JVal.str "Algorithms"), ("credits", JVal.num 7)]).find
        "short_title" = some (JVal.str "Algorithms")
    ∧ (enhance_course_data [("title", JVal.str "Algorithms"), ("credits", JVal.num 7)]).find
        "credits" = some (JVal.num 7)
    ∧ (enhance_course_data [("title", JVal.str "Algorithms"), ("credits", JVal.num 7)]).find
        "component" = some (JVal.str "LEC") :=
  ⟨(enhance_course_data_defaults _).1 (JVal.str "Algorithms") rfl rfl,
   (enhance_course_data_defaults _).2.2.2.2.2.2.2 "credits" (JVal.num 7) rfl,
   (enhance_course_data_defaults _).2.2.1 rfl⟩

/-- C8: enhancement is idempotent — enhancing an already enhanced course
record changes nothing. -/
theorem enhance_course_data_idempotent (c : Dict) :
    enhance_course_data (enhance_course_data c) = enhance_course_data c := by
  have h1 : ((enhance_course_data c).find "short_title").isSome := by
    rw [enhance_find]; simp
  have h2 : ((enhance_course_data c).find "credits").isSome := by
    rw [enhance_find]; simp
  have h3 : ((enhance_course_data c).find "component").isSome := by
    rw [enhance_find]; simp
  have h4 : ((enhance_course_data c).find "repeatable").isSome := by
    rw [enhance_find]; simp
  have h5 : ((enhance_course_data c).find "consent_required").isSome := by
    rw [enhance_find]; simp
  have h6 : ((enhance_course_data c).find "prerequisites").isSome := by
    rw [enhance_find]; simp
  have h7 : ((enhance_course_data c).find "hub_requirements").isSome := by
    rw [enhance_find]; simp
  generalize enhance_course_data c = E at h1 h2 h3 h4 h5 h6 h7 ⊢
  simp only [enhance_course_data]
  rw [Dict.setdefault_of_isSome h1, Dict.setdefault_of_isSome h2,
    Dict.setdefault_of_isSome h3, Dict.setdefault_of_isSome h4,
    Dict.setdefault_of_isSome h5, Dict.setdefault_of_isSome h6,
    Dict.setdefault_of_isSome h7]

/-- C10: when a course record lacks both short_title and title, enhancement
sets short_title to the empty string, because the default is the title
looked up with an empty-string fallback. -/
theorem enhance_course_data_short_title_empty (course : Dict)
    (hst : course.find "short_title" = none)
    (ht : course.find "title" = none) :
    (enhance_course_data course).find "short_title" = some (JVal.str "") := by
  rw [enhance_find]
  simp [hst, ht, Dict.getD]

theorem enhance_course_data_short_title_empty_witness :
    (enhance_course_data [("id", JVal.str "cs111")]).find "short_title"
      = some (JVal.str "") :=
  enhance_course_data_short_title_empty [("id", JVal.str "cs111")] rfl rfl

/-- Match predicate exactly as claim C1 words it: AND across the three
filter categories, absent or empty filters always matching, the text filter
an OR of lowercased substring tests over five fields (missing fields read as
the empty string), department and level by case-insensitive containment. -/
def claim_search_matches (q department level : String) (course : Dict) : Bool :=
  (if q = "" then true else
    strContains (strLower (course.getStr "code")) (strLower q) ||
    strContains (strLower (course.getStr "title")) (strLower q) ||
    strContains (strLower (course.getStr "subject")) (strLower q) ||
    strContains (strLower (course.getStr "catalog_number")) (strLower q) ||
    strContains (strLower (course.getStr "department")) (strLower q)) &&
  (if department = "" then true else
    strContains (strLower (course.getStr "department")) (strLower department) ||
    strContains (strLower (course.getStr "academic_group")) (strLower department) ||
    strContains (strLower (course.getStr "academic_org")) (strLower department)) &&
  (if level = "" then true else
    strContains (strLower (course.getStr "level")) (strLower level))

theorem strLower_eq_empty_iff (s : String) : strLower s = "" ↔ s = "" := by
  constructor
  · intro h
    cases s with
    | mk data =>
      cases data with
      | nil => rfl
      | cons c cs =>
        have := congrArg String.data h
        simp [strLower] at this
  · intro h
    subst h
    rfl

theorem foldl_push_filter (p : Dict → Bool) (f : Dict → Dict) (l : List Dict) :
    ∀ acc, l.foldl (fun a c => if p c then a ++ [f c] else a) acc
      = acc ++ (l.filter p).map f := by
  induction l with
  | nil => intro acc; simp
  | cons c l ih =>
    intro acc
    simp only [List.foldl_cons, List.filter_cons]
    by_cases h : p c
    · simp [h, ih]
    · simp [h, ih]

theorem course_matches_eq_claim (q department level : String) (course : Dict) :
    course_matches (if q ≠ "" then strLower q else "") department level course
      = claim_search_matches q department level course := by
  by_cases hq : q = ""
  · simp [course_matches, claim_search_matches, hq]
  · have hlow : strLower q ≠ "" := fun h => hq ((strLower_eq_empty_iff q).mp h)
    simp [course_matches, claim_search_matches, hq, hlow]

/-- C1: for every collection and every combination of the three search
inputs, search returns exactly the enhanced versions of the courses
satisfying all present filters (AND across categories, OR across the five
text fields, absent filters always matching, all-absent returning the full
enhanced collection), in the input order, with the reported total equal to
the number of returned courses. -/
theorem search_courses_spec (courses : List Dict) (q department level : String) :
    (search_courses courses q department level).courses
      = (courses.filter (claim_search_matches q department level)).map
          enhance_course_data
    ∧ (search_courses courses q department level).total
      = (search_courses courses q department level).courses.length := by
  by_cases h : q = "" ∧ department = "" ∧ level = ""
  · obtain ⟨hq, hd, hl⟩ := h
    subst hq; subst hd; subst hl
    constructor
    · have hall : ∀ c ∈ courses, claim_search_matches "" "" "" c = true := by
        intro c _
        simp [claim_search_matches]
      rw [List.filter_congr hall]
      simp [search_courses]
    · simp [search_courses]
  · have hfun : (fun c => course_matches (if q ≠ "" then strLower q else "")
        department level c) = claim_search_matches q department level :=
      funext (course_matches_eq_claim q department level)
    constructor
    · show (search_courses courses q department level).courses = _
      unfold search_courses
      rw [if_neg h]
      simp only []
      rw [foldl_push_filter (course_matches
        (if q ≠ "" then strLower q else "") department level)
        enhance_course_data courses []]
      rw [show (course_matches (if q ≠ "" then strLower q else "")
        department level) = claim_search_matches q department level from
        funext (course_matches_eq_claim q department level)]
      simp
    · unfold search_courses
      rw [if_neg h]

/-- A string is a department value of a course when one of the three fields
binds it to a non-empty string. -/
def isDeptValueOf (x : String) (c : Dict) : Prop :=
  x ≠ "" ∧ (c.find "department" = some (JVal.str x)
    ∨ c.find "academic_org" = some (JVal.str x)
    ∨ c.find "academic_group" = some (JVal.str x))

theorem mem_fieldInsert (c : Dict) (key : String) (acc : Finset String)
    (x : String) :
    x ∈ fieldInsert c key acc
      ↔ x ∈ acc ∨ (x ≠ "" ∧ c.find key = some (JVal.str x)) := by
  unfold fieldInsert
  split
  next s heq =>
    rw [heq]
    by_cases hs : s = ""
    · subst hs
      simp only [ne_eq, not_true_eq_false, if_false, Option.some.injEq,
        JVal.str.injEq]
      constructor
      · exact fun hx => Or.inl hx
      · rintro (hx | ⟨hne, hxe⟩)
        · exact hx
        · exact absurd hxe.symm hne
    · rw [if_pos hs]
      rw [Finset.mem_insert]
      simp only [Option.some.injEq, JVal.str.injEq]
      constructor
      · rintro (rfl | hx)
        · exact Or.inr ⟨hs, rfl⟩
        · exact Or.inl hx
      · rintro (hx | ⟨hne, rfl⟩)
        · exact Or.inr hx
        · exact Or.inl rfl
  next v heq =>
    constructor
    · exact fun hx => Or.inl hx
    · rintro (hx | ⟨hne, hxe⟩)
      · exact hx
      · exact absurd hxe (heq x)

theorem mem_deptStep (acc : Finset String) (c : Dict) (x : String) :
    x ∈ deptStep acc c ↔ x ∈ acc ∨ isDeptValueOf x c := by
  unfold deptStep isDeptValueOf
  rw [mem_fieldInsert, mem_fieldInsert, mem_fieldInsert]
  tauto

theorem mem_foldl_deptStep (courses : List Dict) :
    ∀ (acc : Finset String) (x : String),
      x ∈ courses.foldl deptStep acc
        ↔ x ∈ acc ∨ ∃ c ∈ courses, isDeptValueOf x c := by
  induction courses with
  | nil => intro acc x; simp
  | cons c l ih =>
    intro acc x
    rw [List.foldl_cons, ih, mem_deptStep]
    simp only [List.mem_cons]
    constructor
    · rintro ((hacc | hc) | ⟨d, hd, hv⟩)
      · exact Or.inl hacc
      · exact Or.inr ⟨c, Or.inl rfl, hc⟩
      · exact Or.inr ⟨d, Or.inr hd, hv⟩
    · rintro (hacc | ⟨d, (rfl | hd), hv⟩)
      · exact Or.inl (Or.inl hacc)
      · exact Or.inl (Or.inr hv)
      · exact Or.inr ⟨d, hd, hv⟩

/-- C7: the departments listing is exactly the set of non-empty department,
academic_org and academic_group values over all courses — no duplicates, no
empty strings — sorted ascending. -/
theorem list_departments_spec (courses : List Dict) :
    (∀ x, x ∈ list_departments courses ↔
      x ≠ "" ∧ ∃ c ∈ courses,
        (c.find "department" = some (JVal.str x)
          ∨ c.find "academic_org" = some (JVal.str x)
          ∨ c.find "academic_group" = some (JVal.str x)))
    ∧ (list_departments courses).Nodup
    ∧ List.Sorted (fun a b => a ≤ b) (list_departments courses) := by
  refine ⟨?_, Finset.sort_nodup _ _, Finset.sort_sorted _ _⟩
  intro x
  unfold list_departments
  rw [Finset.mem_sort, mem_foldl_deptStep]
  simp only [Finset.not_mem_empty, false_or]
  unfold isDeptValueOf
  constructor
  · rintro ⟨c, hc, hx, hd⟩
    exact ⟨hx, c, hc, hd⟩
  · rintro ⟨hx, c, hc, hd⟩
    exact ⟨c, hc, hx, hd⟩

/-- C5: the dataset loader never raises: the primary file wins when it
loads, the fallback is consulted only when the primary is missing, and every
failure — both absent, unreadable file, malformed JSON — yields the empty
sequence.  The file system is modelled by the abstract FileOutcome
environment, since the loader is the one routine doing IO. -/
theorem load_courses_from_json_spec (primary fallback : FileOutcome) :
    (∀ data, primary = FileOutcome.ok data →
      load_courses_from_json primary fallback = data)
    ∧ (∀ data, primary = FileOutcome.absent → fallback = FileOutcome.ok data →
      load_courses_from_json primary fallback = data)
    ∧ (primary = FileOutcome.absent → fallback = FileOutcome.absent →
      load_courses_from_json primary fallback = [])
    ∧ (primary = FileOutcome.unreadable ∨ primary = FileOutcome.malformed →
      load_courses_from_json primary fallback = [])
    ∧ (primary = FileOutcome.absent →
      fallback = FileOutcome.unreadable ∨ fallback = FileOutcome.malformed →
      load_courses_from_json primary fallback = []) := by
  refine ⟨?_, ?_, ?_, ?_, ?_⟩
  · rintro data rfl
    rfl
  · rintro data rfl rfl
    rfl
  · rintro rfl rfl
    rfl
  · rintro (rfl | rfl) <;> rfl
  · rintro rfl (rfl | rfl) <;> rfl

theorem load_courses_from_json_spec_witness :
    load_courses_from_json FileOutcome.absent FileOutcome.malformed = []
    ∧ load_courses_from_json FileOutcome.absent
        (FileOutcome.ok [[("id", JVal.str "1")]]) = [[("id", JVal.str "1")]] :=
  ⟨(load_courses_from_json_spec FileOutcome.absent FileOutcome.malformed).2.2.2.2
      rfl (Or.inr rfl),
   (load_courses_from_json_spec FileOutcome.absent
      (FileOutcome.ok [[("id", JVal.str "1")]])).2.1 [[("id", JVal.str "1")]]
      rfl rfl⟩

/-- Match of the primary lookup predicate on one record: the id field holds
exactly the requested string. -/
def idMatches (course_id : String) (c : Dict) : Bool :=
  match c.find "id" with
  | some v => v.eqStr course_id
  | none => false

theorem findById_ok (course_id : String) :
    ∀ courses : List Dict, (∀ c ∈ courses, (Dict.find c "id").isSome) →
      findById courses course_id = Except.ok (courses.find? (idMatches course_id)) := by
  intro courses
  induction courses with
  | nil => intro _; rfl
  | cons c rest ih =>
    intro h
    have hc : (Dict.find c "id").isSome := h c (List.mem_cons_self c rest)
    cases hv : Dict.find c "id" with
    | none => rw [hv] at hc; simp at hc
    | some v =>
      unfold findById
      rw [hv]
      by_cases hm : v.eqStr course_id
      · have hpa : idMatches course_id c = true := by
          unfold idMatches
          rw [hv]
          exact hm
        rw [List.find?_cons_of_pos _ hpa]
        simp [hm]
      · have hpa : ¬ idMatches course_id c = true := by
          unfold idMatches
          rw [hv]
          simpa using hm
        rw [List.find?_cons_of_neg _ hpa]
        have hrest := ih (fun d hd => h d (List.mem_cons_of_mem c hd))
        simp [hm, hrest]

/-- C6: under the precondition that every record carries an id key (C9 shows
the handler is only total then), fetching a course by the path parameter
returns the enhanced first course whose id equals it; when none matches by
id, the enhanced first course whose code equals it; and a 404 is raised
exactly when no course matches by either id or code. -/
theorem get_course_spec (courses : List Dict) (course_id : String)
    (h : ∀ c ∈ courses, (Dict.find c "id").isSome) :
    (∀ c, courses.find? (idMatches course_id) = some c →
      get_course courses course_id = GetCourseResult.ok (enhance_course_data c))
    ∧ (courses.find? (idMatches course_id) = none →
      ∀ c, courses.find? (codeMatches course_id) = some c →
        get_course courses course_id = GetCourseResult.ok (enhance_course_data c))
    ∧ (get_course courses course_id = GetCourseResult.notFound ↔
      (∀ c ∈ courses, ¬ idMatches course_id c)
        ∧ (∀ c ∈ courses, ¬ codeMatches course_id c)) := by
  unfold get_course
  rw [findById_ok course_id courses h]
  refine ⟨?_, ?_, ?_⟩
  · intro c hc
    rw [hc]
  · intro hnone c hc
    rw [hnone, hc]
  · cases hid : courses.find? (idMatches course_id) with
    | some c =>
      simp only [hid]
      constructor
      · intro hfalse
        cases hfalse
      · rintro ⟨hall, _⟩
        have := List.find?_some hid
        have hmem := List.mem_of_find?_eq_some hid
        exact absurd this (by simpa using hall c hmem)
    | none =>
      simp only [hid]
      cases hcode : courses.find? (codeMatches course_id) with
      | some c =>
        constructor
        · intro hfalse
          cases hfalse
        · rintro ⟨_, hall⟩
          have := List.find?_some hcode
          have hmem := List.mem_of_find?_eq_some hcode
          exact absurd this (by simpa using hall c hmem)
      | none =>
        constructor
        · intro _
          constructor
          · intro c hc
            have := List.find?_eq_none.mp hid c hc
            simpa using this
          · intro c hc
            have := List.find?_eq_none.mp hcode c hc
            simpa using this
        · intro _
          rfl

theorem get_course_spec_witness :
    get_course [[("id", JVal.str "1"), ("code", JVal.str "CS111")]] "CS111"
      = GetCourseResult.ok
          (enhance_course_data [("id", JVal.str "1"), ("code", JVal.str "CS111")]) :=
  (get_course_spec [[("id", JVal.str "1"), ("code", JVal.str "CS111")]] "CS111"
      (by decide)).2.1 rfl
    [("id", JVal.str "1"), ("code", JVal.str "CS111")] rfl

/-- C9: the primary lookup subscripts each record with "id" unconditionally
while the code fallback uses a safe get, so the handler never raises exactly
when every loaded record has an id key; a collection with a record lacking
"id" makes the lookup raise KeyError instead of returning 404, even when the
record would match by code. -/
theorem get_course_total_iff_ids :
    (∀ (courses : List Dict) (course_id : String),
      (∀ c ∈ courses, (Dict.find c "id").isSome) →
        get_course courses course_id ≠ GetCourseResult.keyError)
    ∧ get_course [[("code", JVal.str "CS111")]] "CS111"
        = GetCourseResult.keyError := by
  constructor
  · intro courses course_id h
    unfold get_course
    rw [findById_ok course_id courses h]
    cases courses.find? (idMatches course_id) with
    | some c =>
      intro hfalse
      cases hfalse
    | none =>
      cases courses.find? (codeMatches course_id) with
      | some c =>
        intro hfalse
        cases hfalse
      | none =>
        intro hfalse
        cases hfalse
  · rfl

theorem get_course_total_iff_ids_witness :
    get_course [[("id", JVal.str "1")]] "2" ≠ GetCourseResult.keyError :=
  get_course_total_iff_ids.1 [[("id", JVal.str "1")]] "2" (by decide)

/-- C4: with no AI credential the chatbot answers every non-empty message
with the rule-based fallback tagged model "fallback"; the rules are checked
in the listed order with the first match winning; in particular a message
containing "plan" and "semester" that does not trip the earlier
course-search rule gets the reply referencing the Planner page. -/
theorem chatbot_fallback_spec (courses : List Dict) (message : String)
    (h : message ≠ "") :
    chatbot_conversation_noKey courses message
      = Except.ok ⟨get_fallback_response courses.length message, "fallback", message⟩
    ∧ (∀ r, chatbot_conversation_noKey courses message = Except.ok r →
      r.model = "fallback")
    ∧ (strContains (strLower message) "plan" = true →
      strContains (strLower message) "semester" = true →
      ((strContains (strLower message) "find" ||
        strContains (strLower message) "search" ||
        strContains (strLower message) "look for" ||
        strContains (strLower message) "where") &&
        strContains (strLower message) "course") = false →
      get_fallback_response courses.length message = fallbackPlanner) := by
  have h1 : chatbot_conversation_noKey courses message
      = Except.ok ⟨get_fallback_response courses.length message, "fallback",
          message⟩ := by
    simp [chatbot_conversation_noKey, h]
  refine ⟨h1, ?_, ?_⟩
  · intro r hr
    rw [h1] at hr
    injection hr with h2
    rw [← h2]
  · intro hplan hsem hr1
    simp only [get_fallback_response]
    rw [hr1]
    simp [hplan, hsem]

theorem chatbot_fallback_spec_witness :
    chatbot_conversation_noKey [] "help me plan my semester"
      = Except.ok ⟨get_fallback_response 0 "help me plan my semester", "fallback",
          "help me plan my semester"⟩
    ∧ get_fallback_response 0 "help me plan my semester" = fallbackPlanner :=
  ⟨(chatbot_fallback_spec [] "help me plan my semester" (by decide)).1,
   (chatbot_fallback_spec [] "help me plan my semester" (by decide)).2.2
      (by decide) (by decide) (by decide)⟩

/-- Reduction of the extraction once the handler has non-empty text. -/
theorem gemini_extract_eq (decode : String → Option JVal) (result : JVal)
    (text : String) (htext : gemini_text result = some text)
    (hne : text ≠ "") :
    gemini_extract decode result =
      match decode text with
      | some (JVal.obj fs) => JVal.obj fs
      | some v => JVal.obj [("result", v), ("model", gemini_model_field result)]
      | none =>
        match braceSpan text with
        | some span =>
          match decode span with
          | some (JVal.obj fs) => JVal.obj fs
          | _ => result
        | none => result := by
  unfold gemini_extract
  rw [htext]
  simp [hne]

/-- C2 (amended): the JSON extraction follows the four-tier contract, except
that the tier-2 wrap also carries a model key holding the model field of the
AI response object (null when the response is a bare string): whole-text
object passthrough; non-object wrap; greedy first-to-last brace-span parse
returned when it yields an object; otherwise the raw response unchanged. -/
theorem gemini_extract_tiers (decode : String → Option JVal) (result : JVal)
    (text : String) (htext : gemini_text result = some text)
    (hne : text ≠ "") :
    (∀ fs, decode text = some (JVal.obj fs) →
      gemini_extract decode result = JVal.obj fs)
    ∧ (∀ v, decode text = some v → (∀ fs, v ≠ JVal.obj fs) →
      gemini_extract decode result
        = JVal.obj [("result", v), ("model", gemini_model_field result)])
    ∧ (decode text = none → ∀ span fs, braceSpan text = some span →
      decode span = some (JVal.obj fs) →
      gemini_extract decode result = JVal.obj fs)
    ∧ (decode text = none → braceSpan text = none →
      gemini_extract decode result = result)
    ∧ (decode text = none → ∀ span, braceSpan text = some span →
      (decode span = none ∨ ∃ v, decode span = some v ∧ ∀ fs, v ≠ JVal.obj fs) →
      gemini_extract decode result = result) := by
  rw [gemini_extract_eq decode result text htext hne]
  refine ⟨?_, ?_, ?_, ?_, ?_⟩
  · intro fs hdec
    rw [hdec]
  · intro v hdec hno
    rw [hdec]
    cases v with
    | null => rfl
    | bool b => rfl
    | num q => rfl
    | str s => rfl
    | arr xs => rfl
    | obj fs => exact absurd rfl (hno fs)
  · intro hdec span fs hspan hdecs
    rw [hdec]
    simp [hspan, hdecs]
  · intro hdec hspan
    rw [hdec]
    simp [hspan]
  · intro hdec span hspan hcase
    rw [hdec]
    rcases hcase with hnone | ⟨v, hv, hno⟩
    · simp [hspan, hnone]
    · cases v with
      | null => simp [hspan, hv]
      | bool b => simp [hspan, hv]
      | num q => simp [hspan, hv]
      | str s => simp [hspan, hv]
      | arr xs => simp [hspan, hv]
      | obj fs => exact absurd rfl (hno fs)

theorem gemini_extract_tiers_witness :
    gemini_extract json_decode (JVal.str "here is \x7b\"a\":1\x7d done")
      = JVal.obj [("a", JVal.num 1)]
    ∧ gemini_extract json_decode (JVal.str "no json here")
      = JVal.str "no json here"
    ∧ gemini_extract json_decode (JVal.str "\x7b\"a\":1\x7d")
      = JVal.obj [("a", JVal.num 1)] :=
  ⟨(gemini_extract_tiers json_decode (JVal.str "here is \x7b\"a\":1\x7d done")
      "here is \x7b\"a\":1\x7d done" rfl (by decide)).2.2.1 rfl "\x7b\"a\":1\x7d"
      [("a", JVal.num 1)] rfl rfl,
   (gemini_extract_tiers json_decode (JVal.str "no json here")
      "no json here" rfl (by decide)).2.2.2.1 rfl rfl,
   (gemini_extract_tiers json_decode (JVal.str "\x7b\"a\":1\x7d")
      "\x7b\"a\":1\x7d" rfl (by decide)).1 [("a", JVal.num 1)] rfl⟩

/-- Number of fields when a value is an object, used to separate concrete
object values. -/
def objFieldCount : JVal → Nat
  | JVal.obj fs => fs.length
  | _ => 0

/-- Counterexample to C2 as stated: on a whole-text parse yielding a
non-object, the code does not wrap as exactly the one-key object with a
result field — it also adds a model key, so the two objects differ. -/
theorem gemini_extract_wrap_counterexample :
    gemini_extract json_decode (JVal.str "[1, 2]")
      ≠ JVal.obj [("result", JVal.arr [JVal.num 1, JVal.num 2])] := by
  intro h
  have h2 := congrArg objFieldCount h
  rw [show objFieldCount (gemini_extract json_decode (JVal.str "[1, 2]")) = 2
      from rfl] at h2
  rw [show objFieldCount
      (JVal.obj [("result", JVal.arr [JVal.num 1, JVal.num 2])]) = 1
      from rfl] at h2
  exact absurd h2 (by decide)
